import Mathlib

/-!
# Shallow embedding of the Binance trading bot's core order logic

This file embeds the validation layer (`utils.py`) and the order dispatcher
(`orders.py`, class `OrderExecutor`) of the repository in Lean 4 and proves
the specified properties about them.

Modelling conventions:
* Python floats are modelled as `ℚ` (the code only divides and compares;
  the spec's numeric test values are exactly representable).
* Python strings are modelled as `String`; the string methods `.upper()` and
  `.strip()` used by the code are modelled character-wise on `String.data`.
* The remote exchange client (`self.client`) is an external collaborator; it
  is modelled as an oracle `Client` mapping the index of each remote call to
  its outcome: a well-formed order dict, a `BinanceAPIException`, or any
  other exception.
* Side effects that the spec treats as observable — remote order-placement
  calls, the pacing `time.sleep`, and `print_warning` lines — are recorded
  in an event trace inside an explicit state `St` that also counts remote
  calls.  Plain informational console output and the logger are declared
  out of scope by the spec ("console I/O/formatting, and log-file setup"
  are external collaborators) and are not traced.
* A Python function that raises is modelled with `Except`; `try/except`
  blocks that convert exceptions to `None` are modelled by matching on the
  `Except` value.
-/

namespace TradingBot

/-- Python `str.upper()` for the ASCII symbols the bot handles:
uppercases every character. -/
def py_upper (s : String) : String := ⟨s.data.map Char.toUpper⟩

/-- Python whitespace for `str.strip()` (the characters relevant here). -/
def py_isspace (c : Char) : Bool := c = ' ' ∨ c = '\t' ∨ c = '\n' ∨ c = '\r'

/-- Python `str.strip()`: drops leading and trailing whitespace. -/
def py_strip (s : String) : String :=
  ⟨((s.data.dropWhile py_isspace).reverse.dropWhile py_isspace).reverse⟩

/-- Python `len()` on a string (number of characters). -/
def py_len (s : String) : Nat := s.data.length

/-!
## Validation layer (`utils.py`)
-/

/-- Embedding of `utils.validate_symbol` (utils.py lines 109-130).
`if not symbol` is the empty-string test (the argument is a string);
the code then takes `symbol.upper().strip()` and rejects results shorter
than 6 characters, returning the normalized symbol otherwise. -/
def validate_symbol (symbol : String) : Except String String :=
  if symbol = "" then
    .error "Symbol must be a non-empty string"
  else
    let symbol := py_strip (py_upper symbol)
    if py_len symbol < 6 then
      .error "Symbol too short. Example: BTCUSDT"
    else
      .ok symbol

/-- Embedding of `utils.validate_quantity` (utils.py lines 133-152).
`float(quantity)` on a number is the identity; the inner
`ValueError("Quantity must be greater than 0")` is caught by the function's
own `except (TypeError, ValueError)` clause, which re-raises with the
message below. -/
def validate_quantity (quantity : ℚ) : Except String ℚ :=
  if quantity ≤ 0 then
    .error "Invalid quantity. Must be a positive number"
  else
    .ok quantity

/-- Embedding of `utils.validate_price` (utils.py lines 155-174); same shape as
`validate_quantity`. -/
def validate_price (price : ℚ) : Except String ℚ :=
  if price ≤ 0 then
    .error "Invalid price. Must be a positive number"
  else
    .ok price

/-!
## Data model: orders, requests, remote outcomes, traces
-/

/-- An order dict returned by the exchange: an opaque remote-assigned
identifier plus a status string, echoed back verbatim. -/
structure Order where
  orderId : Nat
  status : String
deriving DecidableEq, Repr

/-- The keyword arguments of one `client.futures_create_order(...)` call.
Optional keys that a given order type does not pass are `none`. -/
structure CreateOrderRequest where
  symbol : String
  side : String
  type : String
  timeInForce : Option String
  quantity : ℚ
  price : Option ℚ
  stopPrice : Option ℚ
deriving DecidableEq, Repr

/-- Outcome of one remote `futures_create_order` call: a well-formed order
dict, a `BinanceAPIException{code, message}`, or any other exception. -/
inductive RemoteOutcome where
  | ok (order : Order)
  | apiError (code : Int) (message : String)
  | unexpected (message : String)
deriving DecidableEq, Repr

/-- Projection `RemoteOutcome.toOption` is `none` exactly on the two failure
outcomes, which the dispatcher converts to a `None` return. -/
def RemoteOutcome.toOption : RemoteOutcome → Option Order
  | .ok o => some o
  | .apiError _ _ => none
  | .unexpected _ => none

/-- The exchange client as an oracle: the outcome of the n-th remote
order-placement call of the session (0-indexed). -/
structure Client where
  responses : Nat → RemoteOutcome

/-- Observable events of a dispatcher run: a remote order-placement call
with its keyword arguments, the pacing `time.sleep(seconds)`, and a
`print_warning` line. -/
inductive Event where
  | remoteCall (req : CreateOrderRequest)
  | sleep (seconds : ℚ)
  | warn (message : String)
deriving DecidableEq, Repr

/-- Predicate `Event.isRemoteCall` selects remote order-placement calls in a trace. -/
def Event.isRemoteCall : Event → Bool
  | .remoteCall _ => true
  | _ => false

/-- Dispatcher state: how many remote calls have been made and the trace of
observable events so far (in order). -/
structure St where
  calls : Nat
  events : List Event
deriving DecidableEq, Repr

/-- The state at the start of a session: no calls, empty trace. -/
def St.init : St := ⟨0, []⟩

/-- Record a `print_warning` line. -/
def St.warn (s : St) (message : String) : St :=
  { s with events := s.events ++ [.warn message] }

/-- Record the pacing `time.sleep(seconds)`. -/
def St.sleep (s : St) (seconds : ℚ) : St :=
  { s with events := s.events ++ [.sleep seconds] }

/-- One `client.futures_create_order(...)` call: consumes the next oracle
response and records the call in the trace. -/
def futures_create_order (client : Client) (req : CreateOrderRequest)
    (s : St) : RemoteOutcome × St :=
  (client.responses s.calls,
   { calls := s.calls + 1, events := s.events ++ [.remoteCall req] })

/-!
## Order dispatcher (`orders.py`, class `OrderExecutor`)

Each `place_*` method is a function from the client oracle, the arguments
and the current state to the Python return value (`Option`, since every
failure path returns `None`) paired with the new state.
-/

/-- The keyword arguments of the remote call in `place_market_order`
(orders.py lines 49-54): `type='MARKET'`, no time-in-force, no prices.
`side` is the already-uppercased side. -/
def marketRequest (symbol side : String) (quantity : ℚ) : CreateOrderRequest :=
  { symbol := symbol, side := side, type := "MARKET",
    timeInForce := none, quantity := quantity, price := none, stopPrice := none }

/-- The keyword arguments of the remote call in `place_limit_order`
(orders.py lines 97-104): `type='LIMIT'`, `timeInForce='GTC'`, a price. -/
def limitRequest (symbol side : String) (quantity price : ℚ) : CreateOrderRequest :=
  { symbol := symbol, side := side, type := "LIMIT",
    timeInForce := some "GTC", quantity := quantity,
    price := some price, stopPrice := none }

/-- The keyword arguments of the remote call in `place_stop_limit_order`
(orders.py lines 155-163): `type='STOP'`, `timeInForce='GTC'`,
`price=limit_price`, `stopPrice=stop_price`. -/
def stopLimitRequest (symbol side : String) (quantity stop_price limit_price : ℚ) :
    CreateOrderRequest :=
  { symbol := symbol, side := side, type := "STOP",
    timeInForce := some "GTC", quantity := quantity,
    price := some limit_price, stopPrice := some stop_price }

/-- Embedding of `OrderExecutor.place_market_order` (orders.py lines 28-72).
Validates the quantity (a `ValueError` is caught by the method's own
`except Exception` and converted to `None`), uppercases the side, makes one
remote call, and converts both `BinanceAPIException` and any other
exception from the call to `None`. -/
def place_market_order (client : Client) (symbol side : String)
    (quantity : ℚ) (s : St) : Option Order × St :=
  match validate_quantity quantity with
  | .error _ => (none, s)
  | .ok quantity =>
    let side := py_upper side
    let (out, s) := futures_create_order client
      (marketRequest symbol side quantity) s
    match out with
    | .ok order => (some order, s)
    | .apiError _ _ => (none, s)
    | .unexpected _ => (none, s)

/-- Embedding of `OrderExecutor.place_limit_order` (orders.py lines 74-122).
Validates quantity and price, then one remote call with
`timeInForce='GTC'`; the same error conversion to `None`. -/
def place_limit_order (client : Client) (symbol side : String)
    (quantity price : ℚ) (s : St) : Option Order × St :=
  match validate_quantity quantity with
  | .error _ => (none, s)
  | .ok quantity =>
    match validate_price price with
    | .error _ => (none, s)
    | .ok price =>
      let side := py_upper side
      let (out, s) := futures_create_order client
        (limitRequest symbol side quantity price) s
      match out with
      | .ok order => (some order, s)
      | .apiError _ _ => (none, s)
      | .unexpected _ => (none, s)

/-- Embedding of `OrderExecutor.place_stop_limit_order` (orders.py lines 124-181).
Validates quantity and both prices, then one remote call with
`type='STOP'`, `price=limit_price`, `stopPrice=stop_price`. -/
def place_stop_limit_order (client : Client) (symbol side : String)
    (quantity stop_price limit_price : ℚ) (s : St) : Option Order × St :=
  match validate_quantity quantity with
  | .error _ => (none, s)
  | .ok quantity =>
    match validate_price stop_price with
    | .error _ => (none, s)
    | .ok stop_price =>
      match validate_price limit_price with
      | .error _ => (none, s)
      | .ok limit_price =>
        let side := py_upper side
        let (out, s) := futures_create_order client
          (stopLimitRequest symbol side quantity stop_price limit_price) s
        match out with
        | .ok order => (some order, s)
        | .apiError _ _ => (none, s)
        | .unexpected _ => (none, s)

/-- The Python return value of `place_oco_order`: either the bare limit
order dict (returned verbatim when the stop-limit leg failed), or the
combined dict `{'oco_type': 'MANUAL_OCO', 'limit_order': ..,
'stop_order': ..}` built on full success.  The `None` case is the
surrounding `Option`. -/
inductive OcoValue where
  | plain (order : Order)
  | manualOco (limit_order stop_order : Order)
deriving DecidableEq, Repr

/-- Embedding of `OrderExecutor.place_oco_order` (orders.py lines 183-253).
Validates quantity and the three prices (a `ValueError` is caught by the
method's `except Exception` and converted to `None`), prints a warning
note, places the limit leg with `quantity/2`, returns `None` if it failed
(`if not limit_order`), otherwise places the stop-limit leg with
`quantity/2`; if that failed, prints a warning and returns the limit order
dict itself, else returns the combined `MANUAL_OCO` dict. -/
def place_oco_order (client : Client) (symbol side : String)
    (quantity price stop_price stop_limit_price : ℚ) (s : St) :
    Option OcoValue × St :=
  match validate_quantity quantity with
  | .error _ => (none, s)
  | .ok quantity =>
    match validate_price price with
    | .error _ => (none, s)
    | .ok price =>
      match validate_price stop_price with
      | .error _ => (none, s)
      | .ok stop_price =>
        match validate_price stop_limit_price with
        | .error _ => (none, s)
        | .ok stop_limit_price =>
          let side := py_upper side
          let s := s.warn "Note: Placing two separate orders (Limit + Stop-Limit)"
          let (limit_order, s) :=
            place_limit_order client symbol side (quantity / 2) price s
          match limit_order with
          | none => (none, s)
          | some limit_order =>
            let (stop_order, s) := place_stop_limit_order client symbol side
              (quantity / 2) stop_price stop_limit_price s
            match stop_order with
            | none =>
              (some (.plain limit_order),
               s.warn "Stop-limit order failed. Limit order was placed successfully.")
            | some stop_order =>
              (some (.manualOco limit_order stop_order), s)

/-- The loop `for i in range(intervals)` of `place_twap_order`
(orders.py lines 298-312), as structural recursion on the remaining
iteration count `fuel` (initially `intervals`, so `i < intervals` exactly
while `fuel > 0`).  Each iteration places one market order with the
per-order quantity; on success the order is appended and, when
`i < intervals - 1`, the pacing sleep is recorded; on failure the loop
breaks at once. -/
def twap_loop (client : Client) (symbol side : String)
    (quantity_per_order wait_time : ℚ) (intervals : Nat) :
    Nat → Nat → List Order × St → List Order × St
  | 0, _, acc => acc
  | fuel + 1, i, (orders, s) =>
    let (order, s) := place_market_order client symbol side quantity_per_order s
    match order with
    | some order =>
      let orders := orders ++ [order]
      let s := if i < intervals - 1 then s.sleep wait_time else s
      twap_loop client symbol side quantity_per_order wait_time intervals
        fuel (i + 1) (orders, s)
    | none => (orders, s)

/-- Embedding of `OrderExecutor.place_twap_order` (orders.py lines 255-323).
Validates the total quantity, then raises `ValueError` when
`intervals <= 0` or `duration <= 0` — all three exceptions are caught by
the method's `except Exception` and converted to `None`.  Otherwise it
computes `quantity_per_order = total_quantity / intervals` and
`wait_time = duration / intervals`, runs the slicing loop, and returns the
(possibly partial) list of successful orders.  `intervals` and `duration`
are Python ints (read with `int(input(...))` in bot.py), hence `Int`. -/
def place_twap_order (client : Client) (symbol side : String)
    (total_quantity : ℚ) (intervals duration : Int) (s : St) :
    Option (List Order) × St :=
  match validate_quantity total_quantity with
  | .error _ => (none, s)
  | .ok total_quantity =>
    let side := py_upper side
    if intervals ≤ 0 then (none, s)
    else if duration ≤ 0 then (none, s)
    else
      let quantity_per_order := total_quantity / (intervals : ℚ)
      let wait_time := (duration : ℚ) / (intervals : ℚ)
      let n := intervals.toNat
      let (orders, s) := twap_loop client symbol side quantity_per_order
        wait_time n n 0 ([], s)
      (some orders, s)

/-!
## Basic lemmas
-/

theorem toUpper_toUpper (c : Char) : c.toUpper.toUpper = c.toUpper := by
  have h2 : ∀ (n : Nat) (hv : Nat.isValidChar n), (Char.ofNatAux n hv).toNat = n :=
    fun n hv => rfl
  by_cases h : c.toNat ≥ 97 ∧ c.toNat ≤ 122
  · have hv : Nat.isValidChar (c.toNat - 32) := Or.inl (by omega)
    have h1 : c.toUpper = Char.ofNatAux (c.toNat - 32) hv := by
      simp [Char.toUpper, h, Char.ofNat, hv]
    rw [h1]
    simp only [Char.toUpper, h2]
    rw [if_neg (by omega)]
  · simp [Char.toUpper, h]

theorem py_upper_idem (s : String) : py_upper (py_upper s) = py_upper s := by
  have h : Char.toUpper ∘ Char.toUpper = Char.toUpper := funext toUpper_toUpper
  simp [py_upper, List.map_map, h]

theorem validate_quantity_pos {q : ℚ} (h : 0 < q) : validate_quantity q = .ok q := by
  simp [validate_quantity, not_le.mpr h]

theorem validate_price_pos {p : ℚ} (h : 0 < p) : validate_price p = .ok p := by
  simp [validate_price, not_le.mpr h]

theorem place_market_order_ok {client : Client} {sym side : String} {q : ℚ}
    {s : St} {o : Order} (hq : 0 < q) (h : client.responses s.calls = .ok o) :
    place_market_order client sym side q s =
      (some o, ⟨s.calls + 1,
        s.events ++ [.remoteCall (marketRequest sym (py_upper side) q)]⟩) := by
  simp [place_market_order, validate_quantity_pos hq, futures_create_order, h]

theorem place_market_order_fail {client : Client} {sym side : String} {q : ℚ}
    {s : St} (hq : 0 < q) (h : (client.responses s.calls).toOption = none) :
    place_market_order client sym side q s =
      (none, ⟨s.calls + 1,
        s.events ++ [.remoteCall (marketRequest sym (py_upper side) q)]⟩) := by
  cases hout : client.responses s.calls with
  | ok o => rw [hout] at h; simp [RemoteOutcome.toOption] at h
  | apiError c m =>
    simp [place_market_order, validate_quantity_pos hq, futures_create_order, hout]
  | unexpected m =>
    simp [place_market_order, validate_quantity_pos hq, futures_create_order, hout]

theorem place_limit_order_ok {client : Client} {sym side : String} {q p : ℚ}
    {s : St} {o : Order} (hq : 0 < q) (hp : 0 < p)
    (h : client.responses s.calls = .ok o) :
    place_limit_order client sym side q p s =
      (some o, ⟨s.calls + 1,
        s.events ++ [.remoteCall (limitRequest sym (py_upper side) q p)]⟩) := by
  simp [place_limit_order, validate_quantity_pos hq, validate_price_pos hp,
    futures_create_order, h]

theorem place_limit_order_fail {client : Client} {sym side : String} {q p : ℚ}
    {s : St} (hq : 0 < q) (hp : 0 < p)
    (h : (client.responses s.calls).toOption = none) :
    place_limit_order client sym side q p s =
      (none, ⟨s.calls + 1,
        s.events ++ [.remoteCall (limitRequest sym (py_upper side) q p)]⟩) := by
  cases hout : client.responses s.calls with
  | ok o => rw [hout] at h; simp [RemoteOutcome.toOption] at h
  | apiError c m =>
    simp [place_limit_order, validate_quantity_pos hq, validate_price_pos hp,
      futures_create_order, hout]
  | unexpected m =>
    simp [place_limit_order, validate_quantity_pos hq, validate_price_pos hp,
      futures_create_order, hout]

theorem place_stop_limit_order_ok {client : Client} {sym side : String}
    {q sp lp : ℚ} {s : St} {o : Order} (hq : 0 < q) (hsp : 0 < sp)
    (hlp : 0 < lp) (h : client.responses s.calls = .ok o) :
    place_stop_limit_order client sym side q sp lp s =
      (some o, ⟨s.calls + 1,
        s.events ++ [.remoteCall (stopLimitRequest sym (py_upper side) q sp lp)]⟩) := by
  simp [place_stop_limit_order, validate_quantity_pos hq, validate_price_pos hsp,
    validate_price_pos hlp, futures_create_order, h]

theorem place_stop_limit_order_fail {client : Client} {sym side : String}
    {q sp lp : ℚ} {s : St} (hq : 0 < q) (hsp : 0 < sp) (hlp : 0 < lp)
    (h : (client.responses s.calls).toOption = none) :
    place_stop_limit_order client sym side q sp lp s =
      (none, ⟨s.calls + 1,
        s.events ++ [.remoteCall (stopLimitRequest sym (py_upper side) q sp lp)]⟩) := by
  cases hout : client.responses s.calls with
  | ok o => rw [hout] at h; simp [RemoteOutcome.toOption] at h
  | apiError c m =>
    simp [place_stop_limit_order, validate_quantity_pos hq, validate_price_pos hsp,
      validate_price_pos hlp, futures_create_order, hout]
  | unexpected m =>
    simp [place_stop_limit_order, validate_quantity_pos hq, validate_price_pos hsp,
      validate_price_pos hlp, futures_create_order, hout]

/-!
## Claims about the validation layer
-/

/-- C9: for every quantity q ≤ 0, `validate_quantity` fails with the
invalid-input error, and for every price p ≤ 0, `validate_price` fails
with the invalid-input error; each succeeds and returns its argument
unchanged exactly when the argument is positive. -/
theorem validate_quantity_price_positive (q p : ℚ) :
    (q ≤ 0 → validate_quantity q = .error "Invalid quantity. Must be a positive number")
  ∧ (0 < q → validate_quantity q = .ok q)
  ∧ (p ≤ 0 → validate_price p = .error "Invalid price. Must be a positive number")
  ∧ (0 < p → validate_price p = .ok p) := by
  refine ⟨fun h => ?_, fun h => ?_, fun h => ?_, fun h => ?_⟩ <;>
    simp [validate_quantity, validate_price, h]

/-- Witness for C9 at quantity −1 and price 1/2. -/
theorem validate_quantity_price_positive_witness :
    validate_quantity (-1) = .error "Invalid quantity. Must be a positive number"
  ∧ validate_price (1/2) = .ok (1/2) :=
  ⟨(validate_quantity_price_positive (-1) (1/2)).1 (by norm_num),
   (validate_quantity_price_positive (-1) (1/2)).2.2.2 (by norm_num)⟩

/-- C8 counterexample: the string `" BTCUS"` is non-empty and has 6
characters after uppercasing, so by the claim `validate_symbol` should
succeed on it; the code also strips whitespace before the length check and
rejects it. -/
theorem validate_symbol_whitespace_counterexample :
    (" BTCUS" : String) ≠ ""
  ∧ py_len (py_upper " BTCUS") = 6
  ∧ validate_symbol " BTCUS" = .error "Symbol too short. Example: BTCUSDT" :=
  ⟨by decide, by rfl, by rfl⟩

/-- C8 (amended): `validate_symbol` fails with an invalid-input error
exactly when the string is empty or shorter than 6 characters after
normalizing to uppercase AND stripping leading/trailing whitespace; on
every other string it succeeds and returns the normalized symbol. -/
theorem validate_symbol_normalized_length (s : String) :
    ((∃ msg, validate_symbol s = .error msg) ↔
      s = "" ∨ py_len (py_strip (py_upper s)) < 6)
  ∧ (s ≠ "" → ¬ py_len (py_strip (py_upper s)) < 6 →
      validate_symbol s = .ok (py_strip (py_upper s))) := by
  constructor
  · constructor
    · rintro ⟨msg, hmsg⟩
      by_contra hc
      push_neg at hc
      obtain ⟨h1, h2⟩ := hc
      simp [validate_symbol, h1, not_lt.mpr h2] at hmsg
    · rintro (h | h)
      · exact ⟨"Symbol must be a non-empty string", by simp [validate_symbol, h]⟩
      · by_cases h0 : s = ""
        · exact ⟨"Symbol must be a non-empty string", by simp [validate_symbol, h0]⟩
        · exact ⟨"Symbol too short. Example: BTCUSDT", by simp [validate_symbol, h0, h]⟩
  · intro h1 h2
    simp [validate_symbol, h1, h2]

/-- Witness for C8 (amended) at the symbol `"BTCUSDT"`. -/
theorem validate_symbol_normalized_length_witness :
    ("BTCUSDT" : String) ≠ ""
  ∧ ¬ py_len (py_strip (py_upper "BTCUSDT")) < 6
  ∧ validate_symbol "BTCUSDT" = .ok (py_strip (py_upper "BTCUSDT")) :=
  ⟨by decide, by decide,
   (validate_symbol_normalized_length "BTCUSDT").2 (by decide) (by decide)⟩

/-!
## The three synthetic-OCO scenarios (helper run lemmas)
-/

theorem place_oco_order_run_limit_fail {client : Client} {sym side : String}
    {q p sp slp : ℚ} (hq : 0 < q) (hp : 0 < p) (hsp : 0 < sp) (hslp : 0 < slp)
    (h0 : (client.responses 0).toOption = none) :
    place_oco_order client sym side q p sp slp St.init =
      (none,
       ⟨1, [.warn "Note: Placing two separate orders (Limit + Stop-Limit)",
            .remoteCall (limitRequest sym (py_upper side) (q / 2) p)]⟩) := by
  cases hout : client.responses 0 with
  | ok o => rw [hout] at h0; simp [RemoteOutcome.toOption] at h0
  | apiError c m =>
    simp [place_oco_order, place_limit_order, validate_quantity_pos hq,
      validate_price_pos hp, validate_price_pos hsp, validate_price_pos hslp,
      validate_quantity_pos (half_pos hq), futures_create_order, St.init,
      St.warn, hout, py_upper_idem]
  | unexpected m =>
    simp [place_oco_order, place_limit_order, validate_quantity_pos hq,
      validate_price_pos hp, validate_price_pos hsp, validate_price_pos hslp,
      validate_quantity_pos (half_pos hq), futures_create_order, St.init,
      St.warn, hout, py_upper_idem]

theorem place_oco_order_run_stop_fail {client : Client} {sym side : String}
    {q p sp slp : ℚ} {lo : Order} (hq : 0 < q) (hp : 0 < p) (hsp : 0 < sp)
    (hslp : 0 < slp) (h0 : client.responses 0 = .ok lo)
    (h1 : (client.responses 1).toOption = none) :
    place_oco_order client sym side q p sp slp St.init =
      (some (.plain lo),
       ⟨2, [.warn "Note: Placing two separate orders (Limit + Stop-Limit)",
            .remoteCall (limitRequest sym (py_upper side) (q / 2) p),
            .remoteCall (stopLimitRequest sym (py_upper side) (q / 2) sp slp),
            .warn "Stop-limit order failed. Limit order was placed successfully."]⟩) := by
  cases hout : client.responses 1 with
  | ok o => rw [hout] at h1; simp [RemoteOutcome.toOption] at h1
  | apiError c m =>
    simp [place_oco_order, place_limit_order, place_stop_limit_order,
      validate_quantity_pos hq, validate_price_pos hp, validate_price_pos hsp,
      validate_price_pos hslp, validate_quantity_pos (half_pos hq),
      futures_create_order, St.init, St.warn, h0, hout, py_upper_idem]
  | unexpected m =>
    simp [place_oco_order, place_limit_order, place_stop_limit_order,
      validate_quantity_pos hq, validate_price_pos hp, validate_price_pos hsp,
      validate_price_pos hslp, validate_quantity_pos (half_pos hq),
      futures_create_order, St.init, St.warn, h0, hout, py_upper_idem]

theorem place_oco_order_run_ok {client : Client} {sym side : String}
    {q p sp slp : ℚ} {lo so : Order} (hq : 0 < q) (hp : 0 < p) (hsp : 0 < sp)
    (hslp : 0 < slp) (h0 : client.responses 0 = .ok lo)
    (h1 : client.responses 1 = .ok so) :
    place_oco_order client sym side q p sp slp St.init =
      (some (.manualOco lo so),
       ⟨2, [.warn "Note: Placing two separate orders (Limit + Stop-Limit)",
            .remoteCall (limitRequest sym (py_upper side) (q / 2) p),
            .remoteCall (stopLimitRequest sym (py_upper side) (q / 2) sp slp)]⟩) := by
  simp [place_oco_order, place_limit_order, place_stop_limit_order,
    validate_quantity_pos hq, validate_price_pos hp, validate_price_pos hsp,
    validate_price_pos hslp, validate_quantity_pos (half_pos hq),
    futures_create_order, St.init, St.warn, h0, h1, py_upper_idem]

/-!
## Concrete clients used by the witnesses
-/

/-- A client whose every order-placement call is rejected by the exchange. -/
def failingClient : Client := ⟨fun _ => .apiError (-2019) "Margin is insufficient."⟩

/-- A client whose first order-placement call succeeds and whose later
calls raise a transport error. -/
def okThenFailClient : Client :=
  ⟨fun n => if n = 0 then .ok ⟨11, "NEW"⟩ else .unexpected "boom"⟩

/-- A client whose n-th order-placement call returns order id 100+n. -/
def okClient : Client := ⟨fun n => .ok ⟨100 + n, "NEW"⟩⟩

/-- A client whose first two order-placement calls succeed and whose
third (and every later) call is rejected by the exchange. -/
def okOkFailClient : Client :=
  ⟨fun n => if n < 2 then .ok ⟨100 + n, "NEW"⟩
            else .apiError (-4164) "Order notional too small"⟩

/-!
## Claims about the synthetic-OCO operation
-/

/-- C4: whenever the limit leg of `place_oco_order` fails, the operation
returns an absent result (`None`), exactly one remote order-placement call
was made, and that call was the limit request — the stop-limit leg is
never attempted. -/
theorem place_oco_limit_leg_fail_aborts (client : Client) (sym side : String)
    (q p sp slp : ℚ) (hq : 0 < q) (hp : 0 < p) (hsp : 0 < sp) (hslp : 0 < slp)
    (h0 : (client.responses 0).toOption = none) :
    (place_oco_order client sym side q p sp slp St.init).fst = none
  ∧ (place_oco_order client sym side q p sp slp St.init).snd.events.countP
      Event.isRemoteCall = 1
  ∧ ∀ r, Event.remoteCall r ∈ (place_oco_order client sym side q p sp slp St.init).snd.events →
      r = limitRequest sym (py_upper side) (q / 2) p := by
  rw [place_oco_order_run_limit_fail hq hp hsp hslp h0]
  refine ⟨rfl, by simp [List.countP_cons, Event.isRemoteCall], ?_⟩
  intro r hr
  simpa using hr

/-- Witness for C4: a client that rejects the limit leg. -/
theorem place_oco_limit_leg_fail_aborts_witness :
    (0:ℚ) < 1 ∧ (failingClient.responses 0).toOption = none
  ∧ (place_oco_order failingClient "BTCUSDT" "SELL" 1 100 90 89 St.init).fst = none
  ∧ (place_oco_order failingClient "BTCUSDT" "SELL" 1 100 90 89 St.init).snd.events.countP
      Event.isRemoteCall = 1 :=
  ⟨by norm_num, rfl,
   (place_oco_limit_leg_fail_aborts failingClient "BTCUSDT" "SELL" 1 100 90 89
      (by norm_num) (by norm_num) (by norm_num) (by norm_num) rfl).1,
   (place_oco_limit_leg_fail_aborts failingClient "BTCUSDT" "SELL" 1 100 90 89
      (by norm_num) (by norm_num) (by norm_num) (by norm_num) rfl).2.1⟩

/-- C1: whenever the limit leg of `place_oco_order` succeeds and the
stop-limit leg fails, the returned result is the bare limit-leg order —
it contains only the limit leg, it differs from every full-success
`MANUAL_OCO` value (so the caller can tell both legs do not exist), and
the partial-failure warning is the last recorded event of the run. -/
theorem place_oco_stop_leg_partial_result (client : Client) (sym side : String)
    (q p sp slp : ℚ) (lo : Order) (hq : 0 < q) (hp : 0 < p) (hsp : 0 < sp)
    (hslp : 0 < slp) (h0 : client.responses 0 = .ok lo)
    (h1 : (client.responses 1).toOption = none) :
    (place_oco_order client sym side q p sp slp St.init).fst = some (.plain lo)
  ∧ (∀ l s', (place_oco_order client sym side q p sp slp St.init).fst ≠
      some (.manualOco l s'))
  ∧ (place_oco_order client sym side q p sp slp St.init).snd.events.getLast? =
      some (.warn "Stop-limit order failed. Limit order was placed successfully.") := by
  rw [place_oco_order_run_stop_fail hq hp hsp hslp h0 h1]
  refine ⟨rfl, ?_, by simp⟩
  intro l s' hcontra
  simp at hcontra

/-- Witness for C1: a client whose first call succeeds and second fails. -/
theorem place_oco_stop_leg_partial_result_witness :
    okThenFailClient.responses 0 = .ok ⟨11, "NEW"⟩
  ∧ (okThenFailClient.responses 1).toOption = none
  ∧ (place_oco_order okThenFailClient "BTCUSDT" "BUY" 1 100 90 89 St.init).fst =
      some (.plain ⟨11, "NEW"⟩)
  ∧ (place_oco_order okThenFailClient "BTCUSDT" "BUY" 1 100 90 89 St.init).snd.events.getLast? =
      some (.warn "Stop-limit order failed. Limit order was placed successfully.") :=
  ⟨rfl, rfl,
   (place_oco_stop_leg_partial_result okThenFailClient "BTCUSDT" "BUY" 1 100 90 89
      ⟨11, "NEW"⟩ (by norm_num) (by norm_num) (by norm_num) (by norm_num) rfl rfl).1,
   (place_oco_stop_leg_partial_result okThenFailClient "BTCUSDT" "BUY" 1 100 90 89
      ⟨11, "NEW"⟩ (by norm_num) (by norm_num) (by norm_num) (by norm_num) rfl rfl).2.2⟩

/-- C7: `place_oco_order` with validated quantity q always splits the
quantity in half: the first remote call of the run is the limit request
with quantity q/2, and every remote call of the run (the stop-limit leg
included, when attempted) carries quantity q/2. -/
theorem place_oco_splits_quantity_half (client : Client) (sym side : String)
    (q p sp slp : ℚ) (hq : 0 < q) (hp : 0 < p) (hsp : 0 < sp) (hslp : 0 < slp) :
    ((place_oco_order client sym side q p sp slp St.init).snd.events.filter
        Event.isRemoteCall).head? =
      some (.remoteCall (limitRequest sym (py_upper side) (q / 2) p))
  ∧ ∀ r, Event.remoteCall r ∈ (place_oco_order client sym side q p sp slp St.init).snd.events →
      r.quantity = q / 2 := by
  cases h0 : client.responses 0 with
  | ok lo =>
    cases h1 : client.responses 1 with
    | ok so =>
      rw [place_oco_order_run_ok hq hp hsp hslp h0 h1]
      refine ⟨by simp [List.filter, Event.isRemoteCall], ?_⟩
      intro r hr
      rcases (by simpa using hr : r = limitRequest sym (py_upper side) (q / 2) p ∨
          r = stopLimitRequest sym (py_upper side) (q / 2) sp slp) with h | h <;>
        simp [h, limitRequest, stopLimitRequest]
    | apiError c m =>
      rw [place_oco_order_run_stop_fail hq hp hsp hslp h0 (by rw [h1]; rfl)]
      refine ⟨by simp [List.filter, Event.isRemoteCall], ?_⟩
      intro r hr
      rcases (by simpa using hr : r = limitRequest sym (py_upper side) (q / 2) p ∨
          r = stopLimitRequest sym (py_upper side) (q / 2) sp slp) with h | h <;>
        simp [h, limitRequest, stopLimitRequest]
    | unexpected m =>
      rw [place_oco_order_run_stop_fail hq hp hsp hslp h0 (by rw [h1]; rfl)]
      refine ⟨by simp [List.filter, Event.isRemoteCall], ?_⟩
      intro r hr
      rcases (by simpa using hr : r = limitRequest sym (py_upper side) (q / 2) p ∨
          r = stopLimitRequest sym (py_upper side) (q / 2) sp slp) with h | h <;>
        simp [h, limitRequest, stopLimitRequest]
  | apiError c m =>
    rw [place_oco_order_run_limit_fail hq hp hsp hslp (by rw [h0]; rfl)]
    refine ⟨by simp [List.filter, Event.isRemoteCall], ?_⟩
    intro r hr
    have h : r = limitRequest sym (py_upper side) (q / 2) p := by simpa using hr
    simp [h, limitRequest]
  | unexpected m =>
    rw [place_oco_order_run_limit_fail hq hp hsp hslp (by rw [h0]; rfl)]
    refine ⟨by simp [List.filter, Event.isRemoteCall], ?_⟩
    intro r hr
    have h : r = limitRequest sym (py_upper side) (q / 2) p := by simpa using hr
    simp [h, limitRequest]

/-- Witness for C7: the 50/50 split on a fully successful OCO run. -/
theorem place_oco_splits_quantity_half_witness :
    (0:ℚ) < 1
  ∧ ((place_oco_order okClient "BTCUSDT" "BUY" 1 100 90 89 St.init).snd.events.filter
        Event.isRemoteCall).head? =
      some (.remoteCall (limitRequest "BTCUSDT" (py_upper "BUY") (1 / 2) 100)) :=
  ⟨by norm_num,
   (place_oco_splits_quantity_half okClient "BTCUSDT" "BUY" 1 100 90 89
      (by norm_num) (by norm_num) (by norm_num) (by norm_num)).1⟩

/-!
## The time-sliced (TWAP) loop: helper lemmas
-/

/-- Trace pattern of k successful slices: k repetitions of a TWAP run: one market
remote call followed by the pacing sleep. -/
def pacedCalls (r : CreateOrderRequest) (w : ℚ) : Nat → List Event
  | 0 => []
  | k + 1 => [.remoteCall r, .sleep w] ++ pacedCalls r w k

theorem twap_loop_fail_step {client : Client} {sym side : String} {q w : ℚ}
    {n f i : Nat} {orders : List Order} {s : St}
    (hq : 0 < q) (h : (client.responses s.calls).toOption = none) :
    twap_loop client sym side q w n (f + 1) i (orders, s) =
      (orders, ⟨s.calls + 1,
        s.events ++ [.remoteCall (marketRequest sym (py_upper side) q)]⟩) := by
  simp [twap_loop, place_market_order_fail hq h]

theorem twap_loop_ok_step_sleep {client : Client} {sym side : String} {q w : ℚ}
    {n f i : Nat} {orders : List Order} {s : St} {o : Order}
    (hq : 0 < q) (h : client.responses s.calls = .ok o) (hi : i < n - 1) :
    twap_loop client sym side q w n (f + 1) i (orders, s) =
      twap_loop client sym side q w n f (i + 1)
        (orders ++ [o], ⟨s.calls + 1,
          s.events ++ [.remoteCall (marketRequest sym (py_upper side) q), .sleep w]⟩) := by
  simp [twap_loop, place_market_order_ok hq h, St.sleep, hi]

theorem twap_loop_ok_step_last {client : Client} {sym side : String} {q w : ℚ}
    {n f i : Nat} {orders : List Order} {s : St} {o : Order}
    (hq : 0 < q) (h : client.responses s.calls = .ok o) (hi : ¬ i < n - 1) :
    twap_loop client sym side q w n (f + 1) i (orders, s) =
      twap_loop client sym side q w n f (i + 1)
        (orders ++ [o], ⟨s.calls + 1,
          s.events ++ [.remoteCall (marketRequest sym (py_upper side) q)]⟩) := by
  simp [twap_loop, place_market_order_ok hq h, hi]

/-- The slicing loop when the first k sub-orders succeed and sub-order
k+1 fails: it returns exactly the k successful orders, makes exactly k+1
remote calls, and its trace ends with the failing remote call (no pacing
sleep after the failure). -/
theorem twap_loop_first_fail (client : Client) (sym side : String) (q w : ℚ)
    (n : Nat) (hq : 0 < q) :
    ∀ (k : Nat) (os : Nat → Order) (f i : Nat) (orders : List Order) (s : St),
      i + f = n → i + k < n →
      (∀ j, j < k → client.responses (s.calls + j) = .ok (os j)) →
      (client.responses (s.calls + k)).toOption = none →
      twap_loop client sym side q w n f i (orders, s) =
        (orders ++ (List.range k).map os,
         ⟨s.calls + k + 1,
          s.events ++ pacedCalls (marketRequest sym (py_upper side) q) w k
            ++ [.remoteCall (marketRequest sym (py_upper side) q)]⟩) := by
  intro k
  induction k with
  | zero =>
    intro os f i orders s hfn hik hsucc hfail
    obtain ⟨f', rfl⟩ : ∃ f', f = f' + 1 := ⟨f - 1, by omega⟩
    rw [twap_loop_fail_step hq (by simpa using hfail)]
    simp [pacedCalls]
  | succ k ih =>
    intro os f i orders s hfn hik hsucc hfail
    obtain ⟨f', rfl⟩ : ∃ f', f = f' + 1 := ⟨f - 1, by omega⟩
    have h0 : client.responses s.calls = .ok (os 0) := by
      simpa using hsucc 0 (by omega)
    have hi : i < n - 1 := by omega
    have hsucc' : ∀ j, j < k → client.responses (s.calls + 1 + j) = .ok (os (j + 1)) := by
      intro j hj
      have hx := hsucc (j + 1) (by omega)
      rwa [show s.calls + (j + 1) = s.calls + 1 + j from by omega] at hx
    have hfail' : (client.responses (s.calls + 1 + k)).toOption = none := by
      have hx := hfail
      rwa [show s.calls + (k + 1) = s.calls + 1 + k from by omega] at hx
    have hrec := ih (fun j => os (j + 1)) f' (i + 1) (orders ++ [os 0])
      ⟨s.calls + 1, s.events ++ [Event.remoteCall (marketRequest sym (py_upper side) q),
        Event.sleep w]⟩ (by omega) (by omega) hsucc' hfail'
    rw [twap_loop_ok_step_sleep hq h0 hi, hrec]
    simp only [pacedCalls, List.range_succ_eq_map, List.map_cons, List.map_map]
    refine congrArg₂ Prod.mk ?_ ?_
    · simp [Function.comp]
    · refine congrArg₂ St.mk (by omega) ?_
      simp

theorem twap_loop_length_le (client : Client) (sym side : String) (q w : ℚ)
    (n : Nat) :
    ∀ (f i : Nat) (orders : List Order) (s : St),
      (twap_loop client sym side q w n f i (orders, s)).fst.length ≤
        orders.length + f := by
  intro f
  induction f with
  | zero => intro i orders s; simp [twap_loop]
  | succ f ih =>
    intro i orders s
    rcases hpm : place_market_order client sym side q s with ⟨o, s1⟩
    cases o with
    | none => simp [twap_loop, hpm]
    | some o =>
      have hstep : twap_loop client sym side q w n (f + 1) i (orders, s) =
          twap_loop client sym side q w n f (i + 1)
            (orders ++ [o], if i < n - 1 then s1.sleep w else s1) := by
        simp [twap_loop, hpm]
      rw [hstep]
      calc (twap_loop client sym side q w n f (i + 1)
              (orders ++ [o], if i < n - 1 then s1.sleep w else s1)).fst.length
          ≤ (orders ++ [o]).length + f := ih (i + 1) (orders ++ [o]) _
        _ ≤ orders.length + (f + 1) := by simp; omega

theorem twap_loop_events_shape (client : Client) (sym side : String)
    (q w : ℚ) (n : Nat) (hq : 0 < q) :
    ∀ (f i : Nat) (orders : List Order) (s : St) (e : Event),
      e ∈ (twap_loop client sym side q w n f i (orders, s)).snd.events →
      e ∈ s.events ∨ e = .remoteCall (marketRequest sym (py_upper side) q)
        ∨ e = .sleep w := by
  intro f
  induction f with
  | zero => intro i orders s e he; exact Or.inl (by simpa [twap_loop] using he)
  | succ f ih =>
    intro i orders s e he
    cases hout : client.responses s.calls with
    | ok o =>
      by_cases hi : i < n - 1
      · rw [twap_loop_ok_step_sleep hq hout hi] at he
        rcases ih (i + 1) (orders ++ [o]) _ e he with h | h | h
        · rcases List.mem_append.mp h with h' | h'
          · exact Or.inl h'
          · simp at h'
            rcases h' with h' | h'
            · exact Or.inr (Or.inl h')
            · exact Or.inr (Or.inr h')
        · exact Or.inr (Or.inl h)
        · exact Or.inr (Or.inr h)
      · rw [twap_loop_ok_step_last hq hout hi] at he
        rcases ih (i + 1) (orders ++ [o]) _ e he with h | h | h
        · rcases List.mem_append.mp h with h' | h'
          · exact Or.inl h'
          · simp at h'
            exact Or.inr (Or.inl h')
        · exact Or.inr (Or.inl h)
        · exact Or.inr (Or.inr h)
    | apiError c m =>
      rw [twap_loop_fail_step hq (by rw [hout]; rfl)] at he
      rcases List.mem_append.mp he with h' | h'
      · exact Or.inl h'
      · simp at h'
        exact Or.inr (Or.inl h')
    | unexpected m =>
      rw [twap_loop_fail_step hq (by rw [hout]; rfl)] at he
      rcases List.mem_append.mp he with h' | h'
      · exact Or.inl h'
      · simp at h'
        exact Or.inr (Or.inl h')

theorem countP_pacedCalls (r : CreateOrderRequest) (w : ℚ) :
    ∀ k, (pacedCalls r w k).countP Event.isRemoteCall = k
  | 0 => rfl
  | k + 1 => by
    simp [pacedCalls, List.countP_cons, Event.isRemoteCall, countP_pacedCalls r w k]

/-!
## The TWAP dispatcher entry point: helper run lemmas
-/

theorem place_twap_order_invalid {client : Client} {sym side : String}
    {tq : ℚ} {intervals duration : Int} {s : St}
    (h : tq ≤ 0 ∨ intervals ≤ 0 ∨ duration ≤ 0) :
    place_twap_order client sym side tq intervals duration s = (none, s) := by
  rcases h with h | h | h
  · simp [place_twap_order, validate_quantity, h]
  · by_cases hq : tq ≤ 0
    · simp [place_twap_order, validate_quantity, hq]
    · simp [place_twap_order, validate_quantity, hq, h]
  · by_cases hq : tq ≤ 0
    · simp [place_twap_order, validate_quantity, hq]
    · by_cases hi : intervals ≤ 0
      · simp [place_twap_order, validate_quantity, hq, hi]
      · simp [place_twap_order, validate_quantity, hq, hi, h]

theorem place_twap_order_run_valid (client : Client) (sym side : String)
    (tq : ℚ) {intervals duration : Int} (hq : 0 < tq) (hi : 0 < intervals)
    (hd : 0 < duration) :
    place_twap_order client sym side tq intervals duration St.init =
      (some (twap_loop client sym (py_upper side) (tq / (intervals : ℚ))
          ((duration : ℚ) / (intervals : ℚ)) intervals.toNat intervals.toNat 0
          ([], St.init)).fst,
       (twap_loop client sym (py_upper side) (tq / (intervals : ℚ))
          ((duration : ℚ) / (intervals : ℚ)) intervals.toNat intervals.toNat 0
          ([], St.init)).snd) := by
  rcases hloop : twap_loop client sym (py_upper side) (tq / (intervals : ℚ))
      ((duration : ℚ) / (intervals : ℚ)) intervals.toNat intervals.toNat 0
      ([], St.init) with ⟨orders, s'⟩
  simp [place_twap_order, validate_quantity_pos hq, not_le.mpr hi,
    not_le.mpr hd, hloop]

theorem place_twap_order_run_first_fail (client : Client) (sym side : String)
    (tq : ℚ) {intervals duration : Int} (os : Nat → Order) (k : Nat)
    (hq : 0 < tq) (hd : 0 < duration) (hk : (k : Int) < intervals)
    (hsucc : ∀ j, j < k → client.responses j = .ok (os j))
    (hfail : (client.responses k).toOption = none) :
    place_twap_order client sym side tq intervals duration St.init =
      (some ((List.range k).map os),
       ⟨k + 1,
        pacedCalls (marketRequest sym (py_upper side) (tq / (intervals : ℚ)))
            ((duration : ℚ) / (intervals : ℚ)) k
          ++ [.remoteCall (marketRequest sym (py_upper side) (tq / (intervals : ℚ)))]⟩) := by
  have hi : 0 < intervals := by omega
  rw [place_twap_order_run_valid client sym side tq hq hi hd]
  have hq' : 0 < tq / (intervals : ℚ) := div_pos hq (by exact_mod_cast hi)
  have hloop := twap_loop_first_fail client sym (py_upper side)
    (tq / (intervals : ℚ)) ((duration : ℚ) / (intervals : ℚ)) intervals.toNat hq'
    k os intervals.toNat 0 [] St.init (by omega) (by omega)
    (by simpa [St.init] using hsucc) (by simpa [St.init] using hfail)
  rw [hloop]
  simp [py_upper_idem, St.init]

/-!
## Claims about the time-sliced (TWAP) operation
-/

/-- C5: whenever `intervals ≤ 0` or `duration ≤ 0`, `place_twap_order`
fails — the local `ValueError` is converted to an absent (`None`) result —
and the state is untouched: no remote order-placement call is made. -/
theorem place_twap_invalid_interval_duration (client : Client) (sym side : String)
    (tq : ℚ) (intervals duration : Int) (s : St)
    (h : intervals ≤ 0 ∨ duration ≤ 0) :
    place_twap_order client sym side tq intervals duration s = (none, s)
  ∧ (place_twap_order client sym side tq intervals duration s).snd.events = s.events := by
  have hrun : place_twap_order client sym side tq intervals duration s = (none, s) :=
    place_twap_order_invalid (by tauto)
  exact ⟨hrun, by rw [hrun]⟩

/-- Witness for C5 at intervals = 0. -/
theorem place_twap_invalid_interval_duration_witness :
    ((0 : Int) ≤ 0 ∨ (300 : Int) ≤ 0)
  ∧ place_twap_order okClient "BTCUSDT" "BUY" 1 0 300 St.init = (none, St.init) :=
  ⟨Or.inl le_rfl,
   (place_twap_invalid_interval_duration okClient "BTCUSDT" "BUY" 1 0 300 St.init
      (Or.inl le_rfl)).1⟩

/-- C2: in a TWAP run whose first k sub-orders succeed and whose (k+1)-st
sub-order fails, the result set contains exactly k successful entries,
exactly k+1 remote order-placement calls are made in the whole run, and
the last recorded event is the failing remote call — no pacing delay and
no further market order follows the failure. -/
theorem place_twap_stops_on_failed_suborder (client : Client) (sym side : String)
    (tq : ℚ) (intervals duration : Int) (os : Nat → Order) (k : Nat)
    (hq : 0 < tq) (hd : 0 < duration) (hk : (k : Int) < intervals)
    (hsucc : ∀ j, j < k → client.responses j = .ok (os j))
    (hfail : (client.responses k).toOption = none) :
    (∃ l, (place_twap_order client sym side tq intervals duration St.init).fst = some l
        ∧ l.length = k)
  ∧ (place_twap_order client sym side tq intervals duration St.init).snd.events.countP
      Event.isRemoteCall = k + 1
  ∧ (place_twap_order client sym side tq intervals duration St.init).snd.events.getLast? =
      some (.remoteCall (marketRequest sym (py_upper side) (tq / (intervals : ℚ)))) := by
  rw [place_twap_order_run_first_fail client sym side tq os k hq hd hk hsucc hfail]
  refine ⟨⟨_, rfl, by simp⟩, ?_, ?_⟩
  · rw [List.countP_append, countP_pacedCalls]
    simp [Event.isRemoteCall]
  · rw [List.getLast?_append_cons]
    rfl

/-- Witness for C2: sub-order 3 of 5 fails; exactly 2 entries, 3 calls. -/
theorem place_twap_stops_on_failed_suborder_witness :
    (∀ j, j < 2 → okOkFailClient.responses j = .ok ⟨100 + j, "NEW"⟩)
  ∧ (okOkFailClient.responses 2).toOption = none
  ∧ (∃ l, (place_twap_order okOkFailClient "BTCUSDT" "BUY" 1 5 300 St.init).fst = some l
        ∧ l.length = 2)
  ∧ (place_twap_order okOkFailClient "BTCUSDT" "BUY" 1 5 300 St.init).snd.events.countP
      Event.isRemoteCall = 3 :=
  ⟨by decide, rfl,
   (place_twap_stops_on_failed_suborder okOkFailClient "BTCUSDT" "BUY" 1 5 300
      (fun j => ⟨100 + j, "NEW"⟩) 2 (by norm_num) (by norm_num) (by norm_num)
      (by decide) rfl).1,
   (place_twap_stops_on_failed_suborder okOkFailClient "BTCUSDT" "BUY" 1 5 300
      (fun j => ⟨100 + j, "NEW"⟩) 2 (by norm_num) (by norm_num) (by norm_num)
      (by decide) rfl).2.1⟩

/-- C3 counterexample: two TWAP runs against the same client — one
requesting 3 sub-orders, one requesting 5 — both succeed once and then
fail at the second sub-order, and both return the very same value,
`[order 11]`.  The returned value is only the list of successful results:
it cannot carry the completed-vs-requested count (1 of 3 vs 1 of 5), which
the code only logs and prints. -/
theorem place_twap_count_not_in_return :
    (place_twap_order okThenFailClient "BTCUSDT" "BUY" 1 3 300 St.init).fst =
      (place_twap_order okThenFailClient "BTCUSDT" "BUY" 1 5 500 St.init).fst
  ∧ (place_twap_order okThenFailClient "BTCUSDT" "BUY" 1 3 300 St.init).fst =
      some [⟨11, "NEW"⟩] := by
  constructor <;>
    norm_num [place_twap_order, validate_quantity, twap_loop, place_market_order,
      futures_create_order, py_upper, St.init, St.sleep, marketRequest,
      okThenFailClient]

/-- C3 (amended): on the first failed sub-order the TWAP run stops
immediately (no retry, no rollback: exactly k+1 calls were made) and
returns the partial list of the k successful results; the
completed-vs-requested count is logged and printed but is not part of the
returned value. -/
theorem place_twap_returns_partial_results (client : Client) (sym side : String)
    (tq : ℚ) (intervals duration : Int) (os : Nat → Order) (k : Nat)
    (hq : 0 < tq) (hd : 0 < duration) (hk : (k : Int) < intervals)
    (hsucc : ∀ j, j < k → client.responses j = .ok (os j))
    (hfail : (client.responses k).toOption = none) :
    (place_twap_order client sym side tq intervals duration St.init).fst =
      some ((List.range k).map os)
  ∧ (place_twap_order client sym side tq intervals duration St.init).snd.calls =
      k + 1 := by
  rw [place_twap_order_run_first_fail client sym side tq os k hq hd hk hsucc hfail]
  exact ⟨rfl, rfl⟩

/-- Witness for C3 (amended): first sub-order of 4 succeeds, second fails;
the return is the one-element partial list. -/
theorem place_twap_returns_partial_results_witness :
    (place_twap_order okThenFailClient "ETHUSDT" "SELL" 2 4 120 St.init).fst =
      some [⟨11, "NEW"⟩]
  ∧ (place_twap_order okThenFailClient "ETHUSDT" "SELL" 2 4 120 St.init).snd.calls = 2 :=
  ⟨(place_twap_returns_partial_results okThenFailClient "ETHUSDT" "SELL" 2 4 120
      (fun _ => ⟨11, "NEW"⟩) 1 (by norm_num) (by norm_num) (by norm_num)
      (by decide) rfl).1,
   (place_twap_returns_partial_results okThenFailClient "ETHUSDT" "SELL" 2 4 120
      (fun _ => ⟨11, "NEW"⟩) 1 (by norm_num) (by norm_num) (by norm_num)
      (by decide) rfl).2⟩

/-- C6: a valid TWAP run computes the per-sub-order quantity as
`total_quantity / intervals` and the pacing wait as
`duration / intervals`: every remote call of the run is the market request
with that same per-order quantity, and every recorded sleep waits that
same number of seconds. -/
theorem place_twap_quantity_and_wait (client : Client) (sym side : String)
    (tq : ℚ) (intervals duration : Int)
    (hq : 0 < tq) (hi : 0 < intervals) (hd : 0 < duration) :
    (∀ r, Event.remoteCall r ∈
        (place_twap_order client sym side tq intervals duration St.init).snd.events →
        r = marketRequest sym (py_upper side) (tq / (intervals : ℚ)))
  ∧ (∀ t, Event.sleep t ∈
        (place_twap_order client sym side tq intervals duration St.init).snd.events →
        t = (duration : ℚ) / (intervals : ℚ)) := by
  rw [place_twap_order_run_valid client sym side tq hq hi hd]
  have hq' : 0 < tq / (intervals : ℚ) := div_pos hq (by exact_mod_cast hi)
  constructor
  · intro r hr
    rcases twap_loop_events_shape client sym (py_upper side) (tq / (intervals : ℚ))
        ((duration : ℚ) / (intervals : ℚ)) intervals.toNat hq' intervals.toNat 0
        [] St.init _ hr with h | h | h
    · simp [St.init] at h
    · rw [py_upper_idem] at h
      exact (Event.remoteCall.injEq _ _).mp h
    · simp at h
  · intro t ht
    rcases twap_loop_events_shape client sym (py_upper side) (tq / (intervals : ℚ))
        ((duration : ℚ) / (intervals : ℚ)) intervals.toNat hq' intervals.toNat 0
        [] St.init _ ht with h | h | h
    · simp [St.init] at h
    · simp at h
    · exact (Event.sleep.injEq _ _).mp h

/-- Witness for C6: qty 1.0, 5 intervals, 300 seconds give per-order
quantity 0.2 and wait 60.0 on every sub-order. -/
theorem place_twap_quantity_and_wait_witness :
    (0 : ℚ) < 1 ∧ (0 : Int) < 5 ∧ (0 : Int) < 300
  ∧ (∀ r, Event.remoteCall r ∈
        (place_twap_order okClient "BTCUSDT" "BUY" 1 5 300 St.init).snd.events →
        r = marketRequest "BTCUSDT" (py_upper "BUY") 0.2)
  ∧ (∀ t, Event.sleep t ∈
        (place_twap_order okClient "BTCUSDT" "BUY" 1 5 300 St.init).snd.events →
        t = 60) := by
  have h := place_twap_quantity_and_wait okClient "BTCUSDT" "BUY" 1 5 300
    (by norm_num) (by norm_num) (by norm_num)
  refine ⟨by norm_num, by norm_num, by norm_num, ?_, ?_⟩
  · intro r hr
    rw [h.1 r hr]
    norm_num [marketRequest]
  · intro t ht
    rw [h.2 t ht]
    norm_num

/-- C10: `place_twap_order` returns `None` exactly when one of the local
pre-flight validations fails (non-positive total quantity, intervals or
duration); once the slicing loop starts it returns a list of length at
most `intervals`; and when the very first sub-order fails it returns the
empty list, not `None`. -/
theorem place_twap_none_iff_invalid (client : Client) (sym side : String)
    (tq : ℚ) (intervals duration : Int) :
    ((place_twap_order client sym side tq intervals duration St.init).fst = none ↔
      tq ≤ 0 ∨ intervals ≤ 0 ∨ duration ≤ 0)
  ∧ (∀ l, (place_twap_order client sym side tq intervals duration St.init).fst = some l →
        l.length ≤ intervals.toNat)
  ∧ ((client.responses 0).toOption = none → 0 < tq → 0 < intervals → 0 < duration →
      (place_twap_order client sym side tq intervals duration St.init).fst = some []) := by
  refine ⟨⟨?_, ?_⟩, ?_, ?_⟩
  · intro hnone
    by_contra hc
    push_neg at hc
    obtain ⟨h1, h2, h3⟩ := hc
    rw [place_twap_order_run_valid client sym side tq h1 h2 h3] at hnone
    simp at hnone
  · intro h
    rw [place_twap_order_invalid h]
  · intro l hl
    by_cases hv : tq ≤ 0 ∨ intervals ≤ 0 ∨ duration ≤ 0
    · rw [place_twap_order_invalid hv] at hl
      simp at hl
    · push_neg at hv
      obtain ⟨h1, h2, h3⟩ := hv
      rw [place_twap_order_run_valid client sym side tq h1 h2 h3] at hl
      rcases hloop : twap_loop client sym (py_upper side) (tq / (intervals : ℚ))
          ((duration : ℚ) / (intervals : ℚ)) intervals.toNat intervals.toNat 0
          ([], St.init) with ⟨orders, s'⟩
      rw [hloop] at hl
      have hlen := twap_loop_length_le client sym (py_upper side)
        (tq / (intervals : ℚ)) ((duration : ℚ) / (intervals : ℚ)) intervals.toNat
        intervals.toNat 0 [] St.init
      rw [hloop] at hlen
      simp at hl hlen
      rw [← hl]
      simpa using hlen
  · intro hfail hq hi hd
    have hrun := place_twap_order_run_first_fail client sym side tq
      (fun _ => ⟨0, ""⟩) 0 hq hd (by exact_mod_cast hi) (fun j hj => absurd hj (by omega)) hfail
    rw [hrun]
    simp

/-- Witness for C10: the very first sub-order fails and the run returns
the empty list (length 0 ≤ 2), not an absent result. -/
theorem place_twap_none_iff_invalid_witness :
    (place_twap_order failingClient "BTCUSDT" "BUY" 1 2 10 St.init).fst = some []
  ∧ ([] : List Order).length ≤ (2 : Int).toNat :=
  ⟨(place_twap_none_iff_invalid failingClient "BTCUSDT" "BUY" 1 2 10).2.2 rfl
      (by norm_num) (by norm_num) (by norm_num),
   (place_twap_none_iff_invalid failingClient "BTCUSDT" "BUY" 1 2 10).2.1 []
      ((place_twap_none_iff_invalid failingClient "BTCUSDT" "BUY" 1 2 10).2.2 rfl
        (by norm_num) (by norm_num) (by norm_num))⟩

end TradingBot
